import Mathlib

set_option maxHeartbeats 1000000

/-
Shallow embedding of src/ConnectionPool.py (class DatabaseConnectionPool).

The pool state mirrors the Python attributes: maxsize, size (the creation
counter) and pool (the gevent Queue of idle connection handles, FIFO with
the head as the oldest element).  A connection handle carries the fields
the pool reads or writes: an identity, its isolation_level attribute and
its connected flag.  Driver calls made by the pool (set_isolation_level,
commit, rollback, close, hub.handle_error, pool.put) are recorded in an
event list so that counting and ordering claims can be stated.
-/

namespace ConnPool

structure Conn where
  id : Nat
  isolation_level : Int
  connected : Bool
deriving DecidableEq

structure PoolState where
  maxsize : Nat
  size : Nat
  pool : List Conn
deriving DecidableEq

inductive Fault where
  | caller (n : Nat)
  | deadConnCommit
  | factoryFailure (n : Nat)
deriving DecidableEq

inductive GetResult where
  | servedFromQueue (c : Conn) (s : PoolState)
  | servedFresh (c : Conn) (s : PoolState)
  | blocked
  | failed (e : Fault) (s : PoolState)
deriving DecidableEq

/-- Embedding of DatabaseConnectionPool.get (ConnectionPool.py lines 27-37):
if size has reached maxsize or the queue is non-empty, take from the queue
(blocking when it is empty); otherwise increment size, invoke the factory
(create_connection), and on factory failure decrement size back and
re-raise. -/
def get (s : PoolState) (factory : Except Fault Conn) : GetResult :=
  if s.size ≥ s.maxsize ∨ s.pool ≠ [] then
    match s.pool with
    | [] => GetResult.blocked
    | c :: rest => GetResult.servedFromQueue c { s with pool := rest }
  else
    let s1 : PoolState := { s with size := s.size + 1 }
    match factory with
    | Except.error e => GetResult.failed e { s1 with size := s1.size - 1 }
    | Except.ok c => GetResult.servedFresh c s1

/-- Embedding of DatabaseConnectionPool.put (lines 39-40): enqueue the handle
at the back of the idle queue. -/
def put (s : PoolState) (item : Conn) : PoolState :=
  { s with pool := s.pool ++ [item] }

inductive Ev where
  | setIso (connId : Nat) (level : Int)
  | body
  | commit (connId : Nat)
  | rollback (connId : Nat)
  | handleError (connId : Nat)
  | close (connId : Nat)
  | putConn (connId : Nat)
deriving DecidableEq

/-- Outcome of one conn.close call: the closeFails oracle says whether the
driver raises. -/
def closeOutcome (closeFails : Nat → Bool) (c : Conn) : Except Unit Unit :=
  if closeFails c.id then Except.error () else Except.ok ()

/-- Embedding of the loop body of closeall (lines 42-46): pop each idle
handle and attempt conn.close under contextlib.suppress, so the loop
continues identically whether or not the close raised. -/
def closeallEvs (closeFails : Nat → Bool) : List Conn → List Ev
  | [] => []
  | c :: rest =>
    match closeOutcome closeFails c with
    | Except.ok _ => Ev.close c.id :: closeallEvs closeFails rest
    | Except.error _ => Ev.close c.id :: closeallEvs closeFails rest

/-- Embedding of DatabaseConnectionPool.closeall (lines 42-46): drain the
queue completely, returning the emptied state and the close events. -/
def closeall (closeFails : Nat → Bool) (s : PoolState) : PoolState × List Ev :=
  ({ s with pool := [] }, closeallEvs closeFails s.pool)

inductive ScopeOutcome where
  | blocked
  | getFailed (e : Fault) (s : PoolState)
  | done (s : PoolState) (res : Except Fault Unit) (evs : List Ev)

/-- Embedding of the body of the connection context manager (lines 49-73)
after conn = self.get() has served handle c0 leaving pool state s1.

Parameters describe the run: isolation_level is the argument of
connection(); bodyFault is the fault the caller work raises (none on
success); connAfter is conn.connected as observed after the caller work;
rollbackFails says whether conn.rollback raises inside _rollback
(lines 81-87); closeFails drives closeall.

Faithful points, matching Python semantics of try/except/else/finally:
the local variable isolation_level is set to None when the requested level
equals conn.isolation_level, and otherwise keeps the REQUESTED level after
conn.set_isolation_level is called (the prior level is never saved); the
raise of OperationalError in the else clause is NOT caught by the except
clause of the same try statement, so it reaches the finally directly; the
finally re-runs conn.set_isolation_level with the surviving local value
(the requested level) before self.put. -/
def scopeAfterGet (s1 : PoolState) (c0 : Conn) (isolation_level : Option Int)
    (bodyFault : Option Fault) (connAfter : Bool) (rollbackFails : Bool)
    (closeFails : Nat → Bool) : ScopeOutcome :=
  let step2 : Conn × Option Int × List Ev :=
    match isolation_level with
    | none => (c0, none, [])
    | some lvl =>
      if c0.isolation_level = lvl then (c0, none, [])
      else ({ c0 with isolation_level := lvl }, some lvl, [Ev.setIso c0.id lvl])
  let c1 : Conn := step2.1
  let iso : Option Int := step2.2.1
  let evs0 : List Ev := step2.2.2 ++ [Ev.body]
  let c2 : Conn := { c1 with connected := connAfter }
  match bodyFault with
  | some f =>
    if c2.connected then
      if rollbackFails then
        ScopeOutcome.done s1 (Except.error f)
          (evs0 ++ [Ev.rollback c2.id, Ev.handleError c2.id])
      else
        match iso with
        | none =>
          ScopeOutcome.done (put s1 c2) (Except.error f)
            (evs0 ++ [Ev.rollback c2.id, Ev.putConn c2.id])
        | some lvl =>
          ScopeOutcome.done (put s1 { c2 with isolation_level := lvl }) (Except.error f)
            (evs0 ++ [Ev.rollback c2.id, Ev.setIso c2.id lvl, Ev.putConn c2.id])
    else
      ScopeOutcome.done (closeall closeFails s1).1 (Except.error f)
        (evs0 ++ (closeall closeFails s1).2)
  | none =>
    if c2.connected then
      match iso with
      | none =>
        ScopeOutcome.done (put s1 c2) (Except.ok ())
          (evs0 ++ [Ev.commit c2.id, Ev.putConn c2.id])
      | some lvl =>
        ScopeOutcome.done (put s1 { c2 with isolation_level := lvl }) (Except.ok ())
          (evs0 ++ [Ev.commit c2.id, Ev.setIso c2.id lvl, Ev.putConn c2.id])
    else
      ScopeOutcome.done s1 (Except.error Fault.deadConnCommit) evs0

/-- Embedding of the whole connection context manager (lines 49-73),
starting with conn = self.get(). -/
def connectionScope (s : PoolState) (factory : Except Fault Conn)
    (isolation_level : Option Int) (bodyFault : Option Fault)
    (connAfter : Bool) (rollbackFails : Bool) (closeFails : Nat → Bool) : ScopeOutcome :=
  match get s factory with
  | GetResult.blocked => ScopeOutcome.blocked
  | GetResult.failed e s1 => ScopeOutcome.getFailed e s1
  | GetResult.servedFromQueue c0 s1 =>
    scopeAfterGet s1 c0 isolation_level bodyFault connAfter rollbackFails closeFails
  | GetResult.servedFresh c0 s1 =>
    scopeAfterGet s1 c0 isolation_level bodyFault connAfter rollbackFails closeFails

inductive PoolOp where
  | acquire (factory : Except Fault Conn)
  | release (item : Conn)

/-- One pool operation of a caller trace: acquire runs get (a blocked get
leaves the state unchanged), release runs put. -/
def stepOp (s : PoolState) : PoolOp → PoolState
  | PoolOp.acquire factory =>
    match get s factory with
    | GetResult.blocked => s
    | GetResult.failed _ s1 => s1
    | GetResult.servedFromQueue _ s1 => s1
    | GetResult.servedFresh _ s1 => s1
  | PoolOp.release item => put s item

def runPool (s : PoolState) : List PoolOp → PoolState
  | [] => s
  | op :: rest => runPool (stepOp s op) rest

/-- Pool state right after DatabaseConnectionPool.init (lines 20-25). -/
def initPool (maxsize : Nat) : PoolState :=
  { maxsize := maxsize, size := 0, pool := [] }

def countEv (p : Ev → Bool) : List Ev → Nat
  | [] => 0
  | e :: rest => (if p e then 1 else 0) + countEv p rest

def Ev.isCommit : Ev → Bool
  | Ev.commit _ => true
  | _ => false

def Ev.isRollback : Ev → Bool
  | Ev.rollback _ => true
  | _ => false

def Ev.isPut : Ev → Bool
  | Ev.putConn _ => true
  | _ => false

def Ev.isClose : Ev → Bool
  | Ev.close _ => true
  | _ => false

def Ev.isHandleError : Ev → Bool
  | Ev.handleError _ => true
  | _ => false

/-
Helper lemmas shared by the claim theorems below.
-/

theorem get_cons (s : PoolState) (c : Conn) (rest : List Conn)
    (factory : Except Fault Conn) (h : s.pool = c :: rest) :
    get s factory = GetResult.servedFromQueue c { s with pool := rest } := by
  unfold get
  rw [h]
  simp

theorem countEv_append (p : Ev → Bool) (l1 l2 : List Ev) :
    countEv p (l1 ++ l2) = countEv p l1 + countEv p l2 := by
  induction l1 with
  | nil => simp [countEv]
  | cons e rest ih => simp [countEv, ih, Nat.add_assoc]

theorem countEv_map_close (p : Ev → Bool) (l : List Conn)
    (h : ∀ n, p (Ev.close n) = false) :
    countEv p (l.map fun c => Ev.close c.id) = 0 := by
  induction l with
  | nil => rfl
  | cons c rest ih => simp [countEv, h, ih]

theorem closeallEvs_eq_map (closeFails : Nat → Bool) (l : List Conn) :
    closeallEvs closeFails l = l.map fun c => Ev.close c.id := by
  induction l with
  | nil => rfl
  | cons c rest ih =>
    unfold closeallEvs closeOutcome
    by_cases h : closeFails c.id <;> simp [h, ih]

theorem stepOp_maxsize (s : PoolState) (op : PoolOp) :
    (stepOp s op).maxsize = s.maxsize := by
  obtain ⟨ms, sz, pl⟩ := s
  cases op with
  | release item => rfl
  | acquire factory =>
    cases pl with
    | cons c rest => simp [stepOp, get]
    | nil =>
      by_cases hm : ms ≤ sz
      · simp [stepOp, get, hm]
      · cases factory with
        | error e => simp [stepOp, get, hm]
        | ok c => simp [stepOp, get, hm]

theorem stepOp_size_le (s : PoolState) (op : PoolOp) (h : s.size ≤ s.maxsize) :
    (stepOp s op).size ≤ s.maxsize := by
  obtain ⟨ms, sz, pl⟩ := s
  cases op with
  | release item => simpa [stepOp, put] using h
  | acquire factory =>
    cases pl with
    | cons c rest => simpa [stepOp, get] using h
    | nil =>
      by_cases hm : ms ≤ sz
      · simpa [stepOp, get, hm] using h
      · cases factory with
        | error e => simpa [stepOp, get, hm] using h
        | ok c =>
          simp [stepOp, get, hm]
          omega

theorem runPool_size_le (ops : List PoolOp) (s : PoolState) (h : s.size ≤ s.maxsize) :
    (runPool s ops).size ≤ s.maxsize := by
  induction ops generalizing s with
  | nil => simpa [runPool] using h
  | cons op rest ih =>
    have h2 := stepOp_maxsize s op
    have h3 := ih (stepOp s op) (by rw [h2]; exact stepOp_size_le s op h)
    rw [h2] at h3
    simpa [runPool] using h3

theorem scope_fault_dead_eq (ms sz : Nat) (cid : Nat) (cil : Int) (ccn : Bool)
    (rest : List Conn) (factory : Except Fault Conn) (iso : Option Int) (fl : Fault)
    (rb : Bool) (cf : Nat → Bool) :
    ∃ pre,
      connectionScope ⟨ms, sz, ⟨cid, cil, ccn⟩ :: rest⟩ factory iso (some fl) false rb cf
        = ScopeOutcome.done ⟨ms, sz, []⟩ (Except.error fl)
            (pre ++ rest.map fun x => Ev.close x.id)
      ∧ countEv Ev.isRollback pre = 0
      ∧ countEv Ev.isPut pre = 0
      ∧ countEv Ev.isClose pre = 0 := by
  cases iso with
  | none =>
    refine ⟨[Ev.body], ?_, rfl, rfl, rfl⟩
    simp [connectionScope, get, scopeAfterGet, closeall, closeallEvs_eq_map]
  | some lvl =>
    by_cases h : cil = lvl
    · refine ⟨[Ev.body], ?_, rfl, rfl, rfl⟩
      simp [connectionScope, get, scopeAfterGet, closeall, closeallEvs_eq_map, h]
    · refine ⟨[Ev.setIso cid lvl, Ev.body], ?_, rfl, rfl, rfl⟩
      simp [connectionScope, get, scopeAfterGet, closeall, closeallEvs_eq_map, h]

/-- C1: along every sequence of acquire and release operations on a pool
built with maxsize N, the creation counter size never exceeds N; get
creates a fresh connection only when the idle queue is empty and size is
below maxsize; when the queue is non-empty get serves its head, and when
the queue is empty at capacity get blocks. -/
theorem pool_capacity_invariant (N : Nat) (ops : List PoolOp) (s : PoolState)
    (factory : Except Fault Conn) :
    (runPool (initPool N) ops).size ≤ N
    ∧ (∀ c s1, get s factory = GetResult.servedFresh c s1 →
        s.pool = [] ∧ s.size < s.maxsize ∧ s1 = { s with size := s.size + 1 })
    ∧ (∀ c rest, s.pool = c :: rest →
        get s factory = GetResult.servedFromQueue c { s with pool := rest })
    ∧ (s.pool = [] → s.maxsize ≤ s.size → get s factory = GetResult.blocked) := by
  refine ⟨?_, ?_, ?_, ?_⟩
  · simpa [initPool] using runPool_size_le ops (initPool N) (by simp [initPool])
  · obtain ⟨ms, sz, pl⟩ := s
    intro c s1 hg
    cases pl with
    | cons c0 rest => simp [get] at hg
    | nil =>
      by_cases hm : ms ≤ sz
      · simp [get, hm] at hg
      · cases factory with
        | error e => simp [get, hm] at hg
        | ok c0 =>
          simp [get, hm] at hg
          obtain ⟨rfl, rfl⟩ := hg
          exact ⟨rfl, by show sz < ms; omega, rfl⟩
  · intro c rest h
    exact get_cons s c rest factory h
  · obtain ⟨ms, sz, pl⟩ := s
    intro hp hm
    subst hp
    simp [get, hm]

/-- C1 witness: a concrete trace on a maxsize 1 pool stays within the
bound, a pool at capacity with an empty queue blocks, a queue hit serves
the head, and creation happens exactly when the queue is empty under
capacity. -/
theorem pool_capacity_invariant_witness :
    (runPool (initPool 1)
        [PoolOp.acquire (Except.ok ⟨0, 0, true⟩), PoolOp.acquire (Except.ok ⟨1, 0, true⟩),
          PoolOp.release ⟨0, 0, true⟩]).size ≤ 1
    ∧ get ⟨1, 1, []⟩ (Except.ok ⟨2, 0, true⟩) = GetResult.blocked
    ∧ get ⟨2, 1, [⟨0, 0, true⟩]⟩ (Except.ok ⟨2, 0, true⟩)
        = GetResult.servedFromQueue ⟨0, 0, true⟩ ⟨2, 1, []⟩
    ∧ ((⟨2, 1, []⟩ : PoolState).pool = [] ∧ (1 : Nat) < 2
        ∧ (⟨2, 2, []⟩ : PoolState) = ⟨2, 1 + 1, []⟩) := by
  refine ⟨(pool_capacity_invariant 1 _ ⟨1, 1, []⟩ (Except.ok ⟨2, 0, true⟩)).1, ?_, ?_, ?_⟩
  · exact (pool_capacity_invariant 1 [] ⟨1, 1, []⟩ (Except.ok ⟨2, 0, true⟩)).2.2.2 rfl
      (by decide)
  · exact (pool_capacity_invariant 1 [] ⟨2, 1, [⟨0, 0, true⟩]⟩
      (Except.ok ⟨2, 0, true⟩)).2.2.1 ⟨0, 0, true⟩ [] rfl
  · exact (pool_capacity_invariant 1 [] ⟨2, 1, []⟩ (Except.ok ⟨2, 0, true⟩)).2.1
      ⟨2, 0, true⟩ ⟨2, 2, []⟩ rfl

/-- C8: when the factory fails during get on an empty queue under capacity,
the reserved creation slot is released so the state returns exactly to its
value before the call (size restored, queue untouched), the factory fault
is propagated unchanged, and a later get with a working factory creates
again. -/
theorem get_factory_failure_releases_slot (s : PoolState) (e : Fault) (c : Conn)
    (hq : s.pool = []) (hlt : s.size < s.maxsize) :
    get s (Except.error e) = GetResult.failed e s
    ∧ get s (Except.ok c) = GetResult.servedFresh c { s with size := s.size + 1 } := by
  obtain ⟨ms, sz, pl⟩ := s
  simp only [PoolState.mk.injEq] at hq ⊢
  subst hq
  have hm : ¬ ms ≤ sz := by simpa using hlt
  constructor
  · simp [get, hm]
  · simp [get, hm]

/-- C8 witness: concrete factory failure on an empty in-bounds pool leaves
the state unchanged and propagates the fault; a retry with a working
factory then creates. -/
theorem get_factory_failure_releases_slot_witness :
    get ⟨3, 1, []⟩ (Except.error (Fault.factoryFailure 7))
      = GetResult.failed (Fault.factoryFailure 7) ⟨3, 1, []⟩
    ∧ get ⟨3, 1, []⟩ (Except.ok ⟨4, 0, true⟩)
      = GetResult.servedFresh ⟨4, 0, true⟩ ⟨3, 2, []⟩ := by
  exact get_factory_failure_releases_slot ⟨3, 1, []⟩ (Fault.factoryFailure 7)
    ⟨4, 0, true⟩ rfl (by decide)

/-- C10: destroying connections never decrements the creation counter:
closeall keeps size unchanged, put keeps size unchanged, the abandon path
of the transaction wrapper (caller fault on a disconnected handle, which
drains the idle queue) keeps size unchanged, and the only decrement, the
factory failure branch of get, only cancels out the increment made in the
same call, restoring the prior size. -/
theorem size_never_decremented (closeFails : Nat → Bool) (s : PoolState) (item : Conn)
    (ms sz : Nat) (c : Conn) (rest : List Conn) (factory : Except Fault Conn)
    (iso : Option Int) (fl : Fault) (rollbackFails : Bool) :
    (closeall closeFails s).1.size = s.size
    ∧ (put s item).size = s.size
    ∧ (∀ s1 res evs,
        connectionScope ⟨ms, sz, c :: rest⟩ factory iso (some fl) false rollbackFails
            closeFails
          = ScopeOutcome.done s1 res evs → s1.size = sz)
    ∧ (∀ e s1, get s factory = GetResult.failed e s1 → s1.size = s.size) := by
  refine ⟨rfl, rfl, ?_, ?_⟩
  · intro s1 res evs h
    obtain ⟨cid, cil, ccn⟩ := c
    obtain ⟨pre, heq, -, -, -⟩ :=
      scope_fault_dead_eq ms sz cid cil ccn rest factory iso fl rollbackFails closeFails
    rw [heq] at h
    cases h
    rfl
  · obtain ⟨ms1, sz1, pl⟩ := s
    intro e s1 hg
    cases pl with
    | cons c0 r => simp [get] at hg
    | nil =>
      by_cases hm : ms1 ≤ sz1
      · simp [get, hm] at hg
      · cases factory with
        | ok c0 => simp [get, hm] at hg
        | error e0 =>
          simp [get, hm] at hg
          obtain ⟨-, rfl⟩ := hg
          rfl

/-- C10 witness: concrete runs of closeall, put, the abandon path and the
factory failure branch all leave the creation counter at its prior value. -/
theorem size_never_decremented_witness :
    (closeall (fun _ => false) ⟨3, 2, [⟨0, 0, true⟩, ⟨1, 0, false⟩]⟩).1.size = 2
    ∧ (put ⟨3, 2, []⟩ ⟨0, 0, true⟩).size = 2
    ∧ (⟨2, 2, []⟩ : PoolState).size = 2
    ∧ (⟨3, 1, []⟩ : PoolState).size = 1 := by
  have h := size_never_decremented (fun _ => false)
    ⟨3, 2, [⟨0, 0, true⟩, ⟨1, 0, false⟩]⟩ ⟨0, 0, true⟩ 2 2 ⟨0, 0, false⟩ []
    (Except.ok ⟨9, 0, true⟩) none (Fault.caller 5) false
  have h2 := size_never_decremented (fun _ => false) ⟨3, 2, []⟩ ⟨0, 0, true⟩ 2 2
    ⟨0, 0, false⟩ [] (Except.ok ⟨9, 0, true⟩) none (Fault.caller 5) false
  have h4 := size_never_decremented (fun _ => false) ⟨3, 1, []⟩ ⟨0, 0, true⟩ 2 2
    ⟨0, 0, false⟩ [] (Except.error (Fault.factoryFailure 7)) none (Fault.caller 5) false
  refine ⟨h.1, h2.2.1, ?_, ?_⟩
  · exact h.2.2.1 ⟨2, 2, []⟩ (Except.error (Fault.caller 5)) [Ev.body] rfl
  · exact h4.2.2.2 (Fault.factoryFailure 7) ⟨3, 1, []⟩ rfl

/-- C5: a transaction scope whose caller work raises while the connection
still reports connected, and whose rollback succeeds, performs exactly one
rollback and no commit, returns the handle to the back of the idle queue,
and re-raises the original caller fault. -/
theorem fault_connected_rollback_once (ms sz : Nat) (c : Conn) (rest : List Conn)
    (factory : Except Fault Conn) (iso : Option Int) (fl : Fault)
    (closeFails : Nat → Bool) :
    ∃ s1 evs c1,
      connectionScope ⟨ms, sz, c :: rest⟩ factory iso (some fl) true false closeFails
        = ScopeOutcome.done s1 (Except.error fl) evs
      ∧ countEv Ev.isRollback evs = 1
      ∧ countEv Ev.isCommit evs = 0
      ∧ s1.pool = rest ++ [c1]
      ∧ c1.id = c.id
      ∧ c1.connected = true
      ∧ s1.maxsize = ms
      ∧ s1.size = sz := by
  obtain ⟨cid, cil, ccn⟩ := c
  cases iso with
  | none =>
    refine ⟨⟨ms, sz, rest ++ [⟨cid, cil, true⟩]⟩,
      [Ev.body, Ev.rollback cid, Ev.putConn cid], ⟨cid, cil, true⟩, ?_,
      rfl, rfl, rfl, rfl, rfl, rfl, rfl⟩
    simp [connectionScope, get, scopeAfterGet, put]
  | some lvl =>
    by_cases h : cil = lvl
    · refine ⟨⟨ms, sz, rest ++ [⟨cid, cil, true⟩]⟩,
        [Ev.body, Ev.rollback cid, Ev.putConn cid], ⟨cid, cil, true⟩, ?_,
        rfl, rfl, rfl, rfl, rfl, rfl, rfl⟩
      simp [connectionScope, get, scopeAfterGet, put, h]
    · refine ⟨⟨ms, sz, rest ++ [⟨cid, lvl, true⟩]⟩,
        [Ev.setIso cid lvl, Ev.body, Ev.rollback cid, Ev.setIso cid lvl, Ev.putConn cid],
        ⟨cid, lvl, true⟩, ?_,
        rfl, rfl, rfl, rfl, rfl, rfl, rfl⟩
      simp [connectionScope, get, scopeAfterGet, put, h]

/-- C6: a transaction scope whose caller work raises while the connection
reports disconnected never rolls back, never returns the handle to the
pool, and empties the idle queue, attempting a close on every idle handle
in order, for every pattern of individual close failures (each one is
suppressed by the drain loop). -/
theorem fault_disconnected_drain (ms sz : Nat) (c : Conn) (rest : List Conn)
    (factory : Except Fault Conn) (iso : Option Int) (fl : Fault) (rollbackFails : Bool)
    (closeFails : Nat → Bool) :
    ∃ pre,
      connectionScope ⟨ms, sz, c :: rest⟩ factory iso (some fl) false rollbackFails
          closeFails
        = ScopeOutcome.done ⟨ms, sz, []⟩ (Except.error fl)
            (pre ++ rest.map fun x => Ev.close x.id)
      ∧ countEv Ev.isRollback (pre ++ rest.map fun x => Ev.close x.id) = 0
      ∧ countEv Ev.isPut (pre ++ rest.map fun x => Ev.close x.id) = 0 := by
  obtain ⟨cid, cil, ccn⟩ := c
  obtain ⟨pre, heq, h1, h2, -⟩ :=
    scope_fault_dead_eq ms sz cid cil ccn rest factory iso fl rollbackFails closeFails
  refine ⟨pre, heq, ?_, ?_⟩
  · rw [countEv_append, h1, countEv_map_close]
    intro n
    rfl
  · rw [countEv_append, h2, countEv_map_close]
    intro n
    rfl

/-- C7: when rollback itself fails while unwinding a caller fault, the
failure is reported once through the side channel handler, the primary
caller fault is the one that propagates, no commit happens, and the handle
is not returned to the pool. -/
theorem rollback_failure_side_channel (ms sz : Nat) (c : Conn) (rest : List Conn)
    (factory : Except Fault Conn) (iso : Option Int) (fl : Fault)
    (closeFails : Nat → Bool) :
    ∃ evs,
      connectionScope ⟨ms, sz, c :: rest⟩ factory iso (some fl) true true closeFails
        = ScopeOutcome.done ⟨ms, sz, rest⟩ (Except.error fl) evs
      ∧ countEv Ev.isHandleError evs = 1
      ∧ countEv Ev.isPut evs = 0
      ∧ countEv Ev.isCommit evs = 0 := by
  obtain ⟨cid, cil, ccn⟩ := c
  cases iso with
  | none =>
    refine ⟨[Ev.body, Ev.rollback cid, Ev.handleError cid], ?_, rfl, rfl, rfl⟩
    simp [connectionScope, get, scopeAfterGet]
  | some lvl =>
    by_cases h : cil = lvl
    · refine ⟨[Ev.body, Ev.rollback cid, Ev.handleError cid], ?_, rfl, rfl, rfl⟩
      simp [connectionScope, get, scopeAfterGet, h]
    · refine ⟨[Ev.setIso cid lvl, Ev.body, Ev.rollback cid, Ev.handleError cid], ?_,
        rfl, rfl, rfl⟩
      simp [connectionScope, get, scopeAfterGet, h]

/-- C9: a transaction scope whose caller work succeeds on a still connected
handle commits exactly once, never rolls back, pushes the handle onto the
back of the idle queue, and when no other handle sits in front of it a
subsequent get serves that very handle from the queue. -/
theorem success_commit_release (ms sz : Nat) (c : Conn) (rest : List Conn)
    (factory factory2 : Except Fault Conn) (iso : Option Int) (rollbackFails : Bool)
    (closeFails : Nat → Bool) :
    ∃ c1 evs,
      connectionScope ⟨ms, sz, c :: rest⟩ factory iso none true rollbackFails closeFails
        = ScopeOutcome.done ⟨ms, sz, rest ++ [c1]⟩ (Except.ok ()) evs
      ∧ countEv Ev.isCommit evs = 1
      ∧ countEv Ev.isRollback evs = 0
      ∧ c1.id = c.id
      ∧ c1.connected = true
      ∧ (rest = [] →
          get ⟨ms, sz, rest ++ [c1]⟩ factory2 = GetResult.servedFromQueue c1 ⟨ms, sz, []⟩) := by
  obtain ⟨cid, cil, ccn⟩ := c
  cases iso with
  | none =>
    refine ⟨⟨cid, cil, true⟩, [Ev.body, Ev.commit cid, Ev.putConn cid], ?_,
      rfl, rfl, rfl, rfl, ?_⟩
    · simp [connectionScope, get, scopeAfterGet, put]
    · intro hr
      subst hr
      exact get_cons ⟨ms, sz, [⟨cid, cil, true⟩]⟩ ⟨cid, cil, true⟩ [] factory2 rfl
  | some lvl =>
    by_cases h : cil = lvl
    · refine ⟨⟨cid, cil, true⟩, [Ev.body, Ev.commit cid, Ev.putConn cid], ?_,
        rfl, rfl, rfl, rfl, ?_⟩
      · simp [connectionScope, get, scopeAfterGet, put, h]
      · intro hr
        subst hr
        exact get_cons ⟨ms, sz, [⟨cid, cil, true⟩]⟩ ⟨cid, cil, true⟩ [] factory2 rfl
    · refine ⟨⟨cid, lvl, true⟩,
        [Ev.setIso cid lvl, Ev.body, Ev.commit cid, Ev.setIso cid lvl, Ev.putConn cid], ?_,
        rfl, rfl, rfl, rfl, ?_⟩
      · simp [connectionScope, get, scopeAfterGet, put, h]
      · intro hr
        subst hr
        exact get_cons ⟨ms, sz, [⟨cid, lvl, true⟩]⟩ ⟨cid, lvl, true⟩ [] factory2 rfl

/-- C9 witness: a concrete successful scope on a one-element pool commits
once, releases the handle, and the next get serves that same handle. -/
theorem success_commit_release_witness :
    ∃ c1 evs,
      connectionScope ⟨1, 1, [⟨0, 0, true⟩]⟩ (Except.ok ⟨5, 0, true⟩) none none true false
          (fun _ => false)
        = ScopeOutcome.done ⟨1, 1, [] ++ [c1]⟩ (Except.ok ()) evs
      ∧ get ⟨1, 1, [] ++ [c1]⟩ (Except.ok ⟨5, 0, true⟩)
        = GetResult.servedFromQueue c1 ⟨1, 1, []⟩ := by
  obtain ⟨c1, evs, h1, -, -, -, -, h6⟩ :=
    success_commit_release 1 1 ⟨0, 0, true⟩ [] (Except.ok ⟨5, 0, true⟩)
      (Except.ok ⟨5, 0, true⟩) none false (fun _ => false)
  exact ⟨c1, evs, h1, h6 rfl⟩

/-- C2 counterexample: a scope on a handle whose prior isolation level is 0,
entered with requested level 1, releases the handle back to the pool still
holding level 1; the exit call to set_isolation_level carries the requested
level 1, not the prior level 0, so the previous level is not restored. -/
theorem isolation_restore_counterexample :
    connectionScope ⟨1, 1, [⟨0, 0, true⟩]⟩ (Except.ok ⟨9, 0, true⟩) (some 1) none true false
        (fun _ => false)
      = ScopeOutcome.done ⟨1, 1, [⟨0, 1, true⟩]⟩ (Except.ok ())
          [Ev.setIso 0 1, Ev.body, Ev.commit 0, Ev.setIso 0 1, Ev.putConn 0]
    ∧ (1 : Int) ≠ 0 := by
  exact ⟨rfl, by decide⟩

/-- C2 amended: when the requested isolation level differs from the current
one, it is applied before the caller work runs, and on both the success
path and the fault path with a successful rollback the exit code calls
set_isolation_level again with the requested level (the local variable
still holds the requested level, the prior one was never saved), so the
handle is released to the pool holding the requested level. -/
theorem isolation_reapplied_not_restored (ms sz : Nat) (c : Conn) (rest : List Conn)
    (factory : Except Fault Conn) (lvl : Int) (bodyFault : Option Fault)
    (closeFails : Nat → Bool) (hne : c.isolation_level ≠ lvl) :
    connectionScope ⟨ms, sz, c :: rest⟩ factory (some lvl) bodyFault true false closeFails
      = ScopeOutcome.done ⟨ms, sz, rest ++ [⟨c.id, lvl, true⟩]⟩
          (match bodyFault with
            | none => Except.ok ()
            | some f => Except.error f)
          ([Ev.setIso c.id lvl, Ev.body]
            ++ (match bodyFault with
                | none => [Ev.commit c.id]
                | some _ => [Ev.rollback c.id])
            ++ [Ev.setIso c.id lvl, Ev.putConn c.id]) := by
  obtain ⟨cid, cil, ccn⟩ := c
  have hne2 : cil ≠ lvl := hne
  cases bodyFault with
  | none => simp [connectionScope, get, scopeAfterGet, put, hne2]
  | some f => simp [connectionScope, get, scopeAfterGet, put, hne2]

/-- C2 amended witness: concrete scopes, one successful and one faulting
with a working rollback, both release the handle holding the requested
level 1 after re-applying it on exit. -/
theorem isolation_reapplied_not_restored_witness :
    connectionScope ⟨2, 1, [⟨0, 0, true⟩]⟩ (Except.ok ⟨9, 0, true⟩) (some 1) none true false
        (fun _ => false)
      = ScopeOutcome.done ⟨2, 1, [⟨0, 1, true⟩]⟩ (Except.ok ())
          [Ev.setIso 0 1, Ev.body, Ev.commit 0, Ev.setIso 0 1, Ev.putConn 0]
    ∧ connectionScope ⟨2, 1, [⟨0, 0, true⟩]⟩ (Except.ok ⟨9, 0, true⟩) (some 1)
        (some (Fault.caller 4)) true false (fun _ => false)
      = ScopeOutcome.done ⟨2, 1, [⟨0, 1, true⟩]⟩ (Except.error (Fault.caller 4))
          [Ev.setIso 0 1, Ev.body, Ev.rollback 0, Ev.setIso 0 1, Ev.putConn 0] := by
  constructor
  · exact isolation_reapplied_not_restored 2 1 ⟨0, 0, true⟩ [] (Except.ok ⟨9, 0, true⟩) 1
      none (fun _ => false) (by decide)
  · exact isolation_reapplied_not_restored 2 1 ⟨0, 0, true⟩ [] (Except.ok ⟨9, 0, true⟩) 1
      (some (Fault.caller 4)) (fun _ => false) (by decide)

/-- C3 counterexample: caller work succeeds on a handle that then reports
disconnected while another handle sits idle in the queue; the scope raises
the dead connection fault but the idle queue still holds the other handle
afterwards, so no drain of the idle queue was triggered. -/
theorem dead_commit_drain_counterexample :
    connectionScope ⟨2, 2, [⟨0, 0, true⟩, ⟨1, 0, true⟩]⟩ (Except.ok ⟨9, 0, true⟩) none none
        false false (fun _ => false)
      = ScopeOutcome.done ⟨2, 2, [⟨1, 0, true⟩]⟩ (Except.error Fault.deadConnCommit)
          [Ev.body]
    ∧ ([⟨1, 0, true⟩] : List Conn) ≠ [] := by
  exact ⟨rfl, by decide⟩

/-- C3 amended: the dead connection fault raised after successful caller
work is not routed through the caller fault handler, because in Python the
except clause does not cover a raise in the else clause of the same try
statement: no rollback is attempted and the handle is not returned to the
pool (the cleanup guard sees connected false), but no drain of the idle
queue happens and no close is attempted; the fault propagates directly. -/
theorem dead_commit_bypasses_fault_handler (ms sz : Nat) (c : Conn) (rest : List Conn)
    (factory : Except Fault Conn) (iso : Option Int) (rollbackFails : Bool)
    (closeFails : Nat → Bool) :
    ∃ evs,
      connectionScope ⟨ms, sz, c :: rest⟩ factory iso none false rollbackFails closeFails
        = ScopeOutcome.done ⟨ms, sz, rest⟩ (Except.error Fault.deadConnCommit) evs
      ∧ countEv Ev.isRollback evs = 0
      ∧ countEv Ev.isClose evs = 0
      ∧ countEv Ev.isPut evs = 0
      ∧ countEv Ev.isCommit evs = 0 := by
  obtain ⟨cid, cil, ccn⟩ := c
  cases iso with
  | none =>
    refine ⟨[Ev.body], ?_, rfl, rfl, rfl, rfl⟩
    simp [connectionScope, get, scopeAfterGet]
  | some lvl =>
    by_cases h : cil = lvl
    · refine ⟨[Ev.body], ?_, rfl, rfl, rfl, rfl⟩
      simp [connectionScope, get, scopeAfterGet, h]
    · refine ⟨[Ev.setIso cid lvl, Ev.body], ?_, rfl, rfl, rfl, rfl⟩
      simp [connectionScope, get, scopeAfterGet, h]

/-- C4: evaluation of the embedded scope at the failing input: caller work
succeeds but the handle reports disconnected before commit; the scope
raises the distinct dead connection fault modelled for line 67, performs
no commit and does not return the handle to the pool.  In the Python
source the name OperationalError on that line is never imported or
defined, so the interpreter actually raises NameError there instead of the
intended error type. -/
theorem dead_commit_eval :
    connectionScope ⟨1, 1, [⟨0, 0, true⟩]⟩ (Except.ok ⟨9, 0, true⟩) none none false false
        (fun _ => false)
      = ScopeOutcome.done ⟨1, 1, []⟩ (Except.error Fault.deadConnCommit) [Ev.body]
    ∧ countEv Ev.isCommit [Ev.body] = 0
    ∧ countEv Ev.isPut [Ev.body] = 0 := by
  exact ⟨rfl, rfl, rfl⟩

end ConnPool
